import Mathlib

/-!
Verification development for the tool-calling agent orchestration engine
(`agent_framework` package: `agent.py`, `state.py`, `utils/tool_registry.py`,
`models.py`, `exceptions.py`).  Python dictionaries are modelled as
association lists with overwrite-in-place insertion (Python dicts keep the
position of an existing key on re-assignment), Python values as the `Value`
inductive, raised exceptions as `Except PyErr`, and the engine's observable
side effects (lifecycle hooks, tool invocations) as an event trace.
-/

namespace AgentSpec

/-- Lookup in a Python-dict-like association list (first binding wins). -/
def dictGet {α : Type} : List (String × α) → String → Option α
  | [], _ => none
  | (k, v) :: t, key => if k = key then some v else dictGet t key

/-- Python `d[k] = v`: overwrite the existing binding in place, else append. -/
def dictInsert {α : Type} : List (String × α) → String → α → List (String × α)
  | [], key, v => [(key, v)]
  | (k, w) :: t, key, v =>
      if k = key then (key, v) :: t else (k, w) :: dictInsert t key v

/-- A Python runtime value, as far as the engine inspects one. -/
inductive Value where
  | vNone : Value
  | vBool : Bool → Value
  | vInt : Int → Value
  | vStr : String → Value
  | vDict : List (String × Value) → Value

/-- Python truthiness for the values above (`if result and ...`). -/
def Value.truthy : Value → Bool
  | .vNone => false
  | .vBool b => b
  | .vInt n => n != 0
  | .vStr s => s != ""
  | .vDict l => !l.isEmpty

/-- `isinstance(v, dict)`. -/
def Value.isDict : Value → Bool
  | .vDict _ => true
  | _ => false

/-- `v is None`. -/
def Value.isNone : Value → Bool
  | .vNone => true
  | _ => false

/-- `d.get(field)` on a dict value; `None` when absent or not a dict. -/
def Value.getField : Value → String → Value
  | .vDict l, f => (dictGet l f).getD .vNone
  | _, _ => .vNone

/-- The exceptions the engine raises or propagates (`exceptions.py` plus the
built-in `ValueError` / `RuntimeError` / `AttributeError` it also uses). -/
inductive PyErr where
  | valueError : String → PyErr
  | runtimeError : String → PyErr
  | attributeError : String → PyErr
  | toolNotFoundError : String → PyErr
  | toolExecutionError : String → PyErr → PyErr

/-- `str(e)`: `ToolExecutionError.__init__` builds
`"Tool {tool_name} execution failed: {str(original_error)}"`; the other
classes carry their message verbatim. -/
def PyErr.message : PyErr → String
  | .valueError m => m
  | .runtimeError m => m
  | .attributeError m => m
  | .toolNotFoundError m => m
  | .toolExecutionError toolName inner => s!"Tool {toolName} execution failed: {PyErr.message inner}"

/-! ## State store (`state.py`, `AgentState`) -/

/-- `AgentState` from `state.py`: per-task mutable store.  The Python field
`variables` is called `vars` here because `variables` is reserved in Lean. -/
structure AgentState where
  vars : List (String × Value) := []
  tool_results : List (String × Value) := []
  last_tool : Option String := none
  task_start_time : Option Nat := none
  task_variables : List (String × Value) := []

/-- `AgentState.has_variable`. -/
def AgentState.has_variable (s : AgentState) (name : String) : Bool :=
  (dictGet s.vars name).isSome

/-- `AgentState.set_variable`. -/
def AgentState.set_variable (s : AgentState) (name : String) (value : Value) : AgentState :=
  { s with vars := dictInsert s.vars name value }

/-- `AgentState.get_variable` (default `None`). -/
def AgentState.get_variable (s : AgentState) (name : String) (default : Value := .vNone) : Value :=
  (dictGet s.vars name).getD default

/-- `AgentState.set_tool_result`: store the result and update `last_tool`. -/
def AgentState.set_tool_result (s : AgentState) (tool_name : String) (result : Value) : AgentState :=
  { s with tool_results := dictInsert s.tool_results tool_name result
         , last_tool := some tool_name }

/-- `AgentState.get_tool_result` (default `None`). -/
def AgentState.get_tool_result (s : AgentState) (tool_name : String) (default : Value := .vNone) : Value :=
  (dictGet s.tool_results tool_name).getD default

/-- `AgentState.has_tool_result`. -/
def AgentState.has_tool_result (s : AgentState) (tool_name : String) : Bool :=
  (dictGet s.tool_results tool_name).isSome

/-- `AgentState.get_last_tool_result` (`if not self.last_tool` is Python
truthiness, so `None` and the empty string both yield the default). -/
def AgentState.get_last_tool_result (s : AgentState) (default : Value := .vNone) : Value :=
  match s.last_tool with
  | none => default
  | some t => if t = "" then default else (dictGet s.tool_results t).getD default

/-- `AgentState.clear`. -/
def AgentState.clear (_s : AgentState) : AgentState :=
  { vars := [], tool_results := [], last_tool := none
  , task_start_time := none, task_variables := [] }

/-! ## Tool contracts and registry (`models.py`, `utils/tool_registry.py`) -/

/-- One property of a JSON-schema-like input/output schema, as far as the
engine inspects it: its optional `"$ref"` entry and optional `"type"` entry. -/
structure PropSchema where
  ref : Option String := none
  type : Option String := none

/-- The schema dictionaries the engine reads via
`.get("properties", {})` and `.get("required", [])`. -/
structure JsonSchema where
  properties : List (String × PropSchema) := []
  required : List String := []

/-- `Tool` from `models.py` (the registered contract).  `hooks` models
`Optional[ToolHooks]` as presence only: hooks are side-effect-only observers,
recorded in the event trace. -/
structure Tool where
  name : String
  description : String := ""
  tags : List String := []
  input_schema : JsonSchema := {}
  output_schema : JsonSchema := {}
  hooks : Bool := false

/-- `ToolMetadata` from `models.py`. -/
structure ToolMetadata where
  name : String
  description : String := ""
  tags : List String := []
  input_schema : JsonSchema := {}
  output_schema : JsonSchema := {}

/-- A tool implementation: `register` receives a zero-argument factory whose
instances expose `execute(**inputs)`; the factory/instance split is pure
plumbing, so the model keeps just the `execute` function (which may raise). -/
structure ToolImpl where
  execute : List (String × Value) → Except PyErr Value

/-- `ToolRegistry` from `utils/tool_registry.py`: the parallel
name→contract (`tools`) and name→implementation (`_implementations`,
written `implementations` here) maps. -/
structure ToolRegistry where
  tools : List (String × Tool) := []
  implementations : List (String × ToolImpl) := []

/-- `ToolRegistry.register`: the duplicate check precedes both map writes, so
on the duplicate `ValueError` the registry is returned exactly as it was;
otherwise the metadata is converted to a `Tool` (with `hooks=None`) and both
maps are written.  The result pairs the post-call registry with the raised
exception, if any. -/
def ToolRegistry.register (r : ToolRegistry) (metadata : ToolMetadata)
    (implementation : ToolImpl) : ToolRegistry × Option PyErr :=
  if (dictGet r.tools metadata.name).isSome then
    (r, some (.valueError s!"Tool {metadata.name} is already registered"))
  else
    let tool : Tool :=
      { name := metadata.name, description := metadata.description
      , tags := metadata.tags, input_schema := metadata.input_schema
      , output_schema := metadata.output_schema, hooks := false }
    ({ tools := dictInsert r.tools metadata.name tool
     , implementations := dictInsert r.implementations metadata.name implementation }, none)

/-- `ToolRegistry.get_tool`. -/
def ToolRegistry.get_tool (r : ToolRegistry) (name : String) : Option Tool :=
  dictGet r.tools name

/-- `ToolRegistry.get_implementation`. -/
def ToolRegistry.get_implementation (r : ToolRegistry) (name : String) : Option ToolImpl :=
  dictGet r.implementations name

/-- `ToolRegistry.list_tools`. -/
def ToolRegistry.list_tools (r : ToolRegistry) : List Tool :=
  r.tools.map Prod.snd

/-- `ToolRegistry.get_tools_by_tags` (AND semantics). -/
def ToolRegistry.get_tools_by_tags (r : ToolRegistry) (tags : List String) : List Tool :=
  (r.tools.map Prod.snd).filter (fun tool => tags.all (fun tag => tool.tags.contains tag))

/-- One entry of `ToolRegistry.get_formatted_tools` (the nested
`{"type": "function", "function": {...}}` shape flattened to its fields). -/
structure FormattedTool where
  name : String
  description : String
  properties : List (String × PropSchema)
  required : List String

/-- `ToolRegistry.get_formatted_tools`. -/
def ToolRegistry.get_formatted_tools (r : ToolRegistry) : List FormattedTool :=
  (r.tools.map Prod.snd).map (fun tool =>
    { name := tool.name, description := tool.description
    , properties := tool.input_schema.properties
    , required := tool.input_schema.required })

/-! ## Execution records (`models.py`) -/

/-- One step of `TaskAnalysis.execution_plan`.  In the source each step is a
plain dict read through `step["tool"]`, `step["reasoning"]` and
`step.get("input_mapping", {})`. -/
structure PlanStep where
  tool : String
  reasoning : String := ""
  input_mapping : List (String × String) := []

/-- `TaskAnalysis` from `models.py` (the Planner's structured output). -/
structure TaskAnalysis where
  input_analysis : String := ""
  available_tools : List String := []
  tool_capabilities : List (String × List String) := []
  execution_plan : List PlanStep := []
  requirements_coverage : List (String × List String) := []
  chain_of_thought : List String := []

/-- `ToolCall` from `models.py` (never constructed by the engine). -/
structure ToolCall where
  tool_name : String
  inputs : List (String × Value) := []
  outputs : Option Value := none
  execution_reasoning : String := ""
  timestamp : Nat := 0
  success : Bool := true
  error : Option String := none

/-- `ExecutionStep` from `models.py`: the element type of
`TaskExecution.steps`.  Note it has *no* `tool_name`, `result` or `error`
attribute, although `Agent._create_tool_context` reads those three off every
element of `TaskExecution.steps`. -/
structure ExecutionStep where
  step_type : String := ""
  description : String := ""
  timestamp : Nat := 0
  tool_calls : List ToolCall := []
  intermediate_state : Option Value := none

/-- `TaskExecution` from `models.py`. -/
structure TaskExecution where
  task_id : String
  agent_id : String
  input : String
  steps : List ExecutionStep := []
  output : Option String := none
  start_time : Nat := 0
  end_time : Option Nat := none
  status : String := "in_progress"
  error : Option String := none

/-- The dict `Agent.call_tool` appends to `self.message_history`. -/
structure MsgRec where
  role : String
  tool_name : String
  inputs : List (String × Value)
  result : Value
  reasoning : String
  timestamp : Nat

/-- `ToolContext` from `models.py`: read-only snapshot built before each
tool call. -/
structure ToolContext where
  task : String
  tool_name : String
  inputs : List (String × Value)
  available_tools : List FormattedTool
  previous_tools : List String
  previous_results : List Value
  previous_errors : List Value
  message_history : List MsgRec
  agent_id : String
  task_id : String
  start_time : Nat
  metadata : List (String × Value)
  plan : Option TaskAnalysis

/-! ## Input resolution (`Agent._map_inputs_to_tool`) -/

/-- `"." in value_ref`, written over the string's character list so that
closed instances compute by definitional reduction. -/
def containsDot (s : String) : Bool :=
  s.data.contains '.'

/-- Auxiliary recursion for `splitOnDot`. -/
def splitOnDotAux : List Char → List Char → List String
  | [], acc => [String.mk acc.reverse]
  | c :: rest, acc =>
    if c = '.' then String.mk acc.reverse :: splitOnDotAux rest []
    else splitOnDotAux rest (c :: acc)

/-- `value_ref.split(".")`, over the character list for the same reason. -/
def splitOnDot (s : String) : List String :=
  splitOnDotAux s.data []

/-- The explicit-mapping branch: one pass over `input_mapping.items()`.
A `value_ref` containing a dot is unpacked by `value_ref.split(".")` into
exactly two parts (Python raises `ValueError` on more); the referenced
tool's result contributes the projected field only when it is a truthy
dict, otherwise the property is silently left unassigned.  A dot-free
`value_ref` is first tried as a tool name and falls back to the literal
string when no result exists (`is not None`). -/
def explicitLoop (st : AgentState) :
    List (String × String) → List (String × Value) → Except PyErr (List (String × Value))
  | [], mapped_inputs => .ok mapped_inputs
  | (input_name, value_ref) :: rest, mapped_inputs =>
    if containsDot value_ref then
      match splitOnDot value_ref with
      | [toolName, fieldName] =>
        let tool_result := st.get_tool_result toolName
        if tool_result.truthy && tool_result.isDict then
          explicitLoop st rest (dictInsert mapped_inputs input_name (tool_result.getField fieldName))
        else
          explicitLoop st rest mapped_inputs
      | _ => .error (.valueError "too many values to unpack (expected 2)")
    else
      let tool_result := st.get_tool_result value_ref
      if tool_result.isNone then
        explicitLoop st rest (dictInsert mapped_inputs input_name (.vStr value_ref))
      else
        explicitLoop st rest (dictInsert mapped_inputs input_name tool_result)

/-- The `$ref` branch scans `state.tool_results.items()` for the first
truthy dict result.  The Python loop variable is spelled `tool_name`, which
shadows the enclosing `tool_name` and leaks past the loop, so the scan also
returns the final value of that variable. -/
def refScan : List (String × Value) → String → Option Value × String
  | [], curName => (none, curName)
  | (k, v) :: rest, _ =>
    if v.truthy && v.isDict then (some v, k) else refScan rest k

/-- The schema-guided branch: one pass over `properties.items()`, threading
the (shadowable) `tool_name` variable and the accumulated `mapped_inputs`.
`context_data` and `task_parameters` model the same-named optional
attributes a subclass may set (`hasattr` checks). -/
def schemaLoop (st : AgentState) (context_data : Option String)
    (task_parameters : Option (List (String × Value))) (task : String) :
    List (String × PropSchema) → String → List (String × Value) →
      List (String × Value) × String
  | [], curName, mapped_inputs => (mapped_inputs, curName)
  | (input_name, input_schema) :: rest, curName, mapped_inputs =>
    if input_schema.ref.isSome then
      match refScan st.tool_results curName with
      | (some result, newName) =>
          schemaLoop st context_data task_parameters task rest newName
            (dictInsert mapped_inputs input_name result)
      | (none, newName) =>
          schemaLoop st context_data task_parameters task rest newName mapped_inputs
    else if st.has_tool_result input_name then
      schemaLoop st context_data task_parameters task rest curName
        (dictInsert mapped_inputs input_name (st.get_tool_result input_name))
    else if st.has_variable input_name then
      schemaLoop st context_data task_parameters task rest curName
        (dictInsert mapped_inputs input_name (st.get_variable input_name))
    else if input_schema.type = some "string" then
      if input_name = "news_context" && context_data.isSome then
        schemaLoop st context_data task_parameters task rest curName
          (dictInsert mapped_inputs input_name (.vStr (context_data.getD "")))
      else if input_name = "hn_context" && context_data.isSome then
        schemaLoop st context_data task_parameters task rest curName
          (dictInsert mapped_inputs input_name (.vStr (context_data.getD "")))
      else if task_parameters.isSome &&
          (dictGet (task_parameters.getD []) input_name).isSome then
        schemaLoop st context_data task_parameters task rest curName
          (dictInsert mapped_inputs input_name
            ((dictGet (task_parameters.getD []) input_name).getD .vNone))
      else
        schemaLoop st context_data task_parameters task rest curName
          (dictInsert mapped_inputs input_name (.vStr task))
    else
      schemaLoop st context_data task_parameters task rest curName mapped_inputs

/-- `Agent._map_inputs_to_tool`: unknown tool → `ToolNotFoundError`; a
non-empty explicit mapping is used exclusively and returned as is; otherwise
the schema-guided mapping runs, an empty mapping is legal when the tool has
no required properties, a non-empty mapping is returned without checking the
`required` list, and only the no-required-and-nothing-mapped/
something-required-and-nothing-mapped split decides between `{}` and the
final `ValueError` (whose message uses the possibly shadowed `tool_name`). -/
def mapInputsToTool (registry : ToolRegistry) (st : AgentState)
    (context_data : Option String) (task_parameters : Option (List (String × Value)))
    (tool_name task : String) (input_mapping : List (String × String)) :
    Except PyErr (List (String × Value)) :=
  match registry.get_tool tool_name with
  | none => .error (.toolNotFoundError s!"Tool {tool_name} not found")
  | some tool =>
    let required_inputs := tool.input_schema.properties
    if !input_mapping.isEmpty then
      explicitLoop st input_mapping []
    else
      let (mapped_inputs, curName) :=
        schemaLoop st context_data task_parameters task required_inputs tool_name []
      let required_fields := tool.input_schema.required
      if required_fields.isEmpty && mapped_inputs.isEmpty then
        .ok []
      else if !mapped_inputs.isEmpty then
        .ok mapped_inputs
      else
        .error (.valueError s!"Could not map inputs for tool {curName}")

/-! ## Execution engine (`Agent.run` and helpers)

Side effects that the Python engine performs through hooks, the logger and
the actual tool `execute` call are recorded in an event trace; `datetime.now()`
is a monotone counter.  The Python `Agent.__init__` annotates `self.state`
as a plain dict, but every use site in the engine calls the `AgentState`
interface from `state.py`, so the model gives the engine an `AgentState`. -/

/-- Observable events of one run. -/
inductive Event where
  | afterSelection : String → Nat → List String → Event
  | beforeExecution : ToolContext → Event
  | afterExecution : ToolContext → Option Value → Option PyErr → Event
  | toolInvoked : String → List (String × Value) → AgentState → Event

/-- The per-agent configuration and collaborators `Agent.run` consumes:
`llm` is the outcome of `llm_provider.generate_structured` (absent provider
→ `RuntimeError`), `formatResult` the abstract `_format_result` of the
concrete subclass, `selectionHooks` whether
`logger.get_tool_selection_hooks()` yields hooks. -/
structure AgentCfg where
  agent_id : String
  registry : ToolRegistry
  llm : Option (Except PyErr TaskAnalysis)
  formatResult : String → List (String × Value) → Except PyErr String
  selectionHooks : Bool := false
  context_data : Option String := none
  task_parameters : Option (List (String × Value)) := none
  metadata : List (String × Value) := []

/-- The engine's mutable pieces threaded through one run. -/
structure RunSt where
  state : AgentState
  message_history : List MsgRec
  task : TaskExecution
  plan : Option TaskAnalysis
  trace : List Event
  clock : Nat

/-- The comprehension `[step.tool_name for step in self.current_task.steps]`:
`ExecutionStep` has no `tool_name` attribute, so any non-empty `steps`
list raises `AttributeError`. -/
def previousTools : List ExecutionStep → Except PyErr (List String)
  | [] => .ok []
  | _ :: _ => .error (.attributeError "ExecutionStep object has no attribute tool_name")

/-- `[step.result for step in ... if step.result]`: same missing attribute. -/
def previousResults : List ExecutionStep → Except PyErr (List Value)
  | [] => .ok []
  | _ :: _ => .error (.attributeError "ExecutionStep object has no attribute result")

/-- `[step.error for step in ... if step.error]`: same missing attribute. -/
def previousErrors : List ExecutionStep → Except PyErr (List Value)
  | [] => .ok []
  | _ :: _ => .error (.attributeError "ExecutionStep object has no attribute error")

/-- `Agent._create_tool_context`.  `run` assigns `current_task` before any
context is built, so the model keeps the task non-optional and drops the
`"No active task"` guard. -/
def createToolContext (cfg : AgentCfg) (rs : RunSt) (tool_name : String)
    (inputs : List (String × Value)) : Except PyErr ToolContext := do
  let pt ← previousTools rs.task.steps
  let pr ← previousResults rs.task.steps
  let pe ← previousErrors rs.task.steps
  .ok { task := rs.task.input
      , tool_name := tool_name
      , inputs := inputs
      , available_tools := cfg.registry.get_formatted_tools
      , previous_tools := pt
      , previous_results := pr
      , previous_errors := pe
      , message_history := rs.message_history
      , agent_id := cfg.agent_id
      , task_id := rs.task.task_id
      , start_time := rs.task.start_time
      , metadata := cfg.metadata
      , plan := rs.plan }

/-- Fire a side-effect-only observer when it is attached: record the event
iff `cond` holds (`if tool.hooks: await ...` / the logger checks). -/
def emitIf (cond : Bool) (rs : RunSt) (ev : Event) : RunSt :=
  if cond then { rs with trace := rs.trace ++ [ev] } else rs

/-- `Agent._execute_tool`: missing implementation → `ToolNotFoundError`
(raised before the `try`, hence not wrapped); otherwise the implementation
is invoked (recorded with the state store as seen at call time), a
successful result is written to the state store keyed by the tool name, and
any exception is wrapped in `ToolExecutionError`. -/
def executeTool (cfg : AgentCfg) (rs : RunSt) (tool_name : String)
    (inputs : List (String × Value)) : RunSt × Except PyErr Value :=
  match cfg.registry.get_implementation tool_name with
  | none => (rs, .error (.toolNotFoundError s!"No implementation found for tool: {tool_name}"))
  | some tool_impl =>
    match tool_impl.execute inputs with
    | .ok result =>
        ({ rs with trace := rs.trace ++ [.toolInvoked tool_name inputs rs.state],
                   state := rs.state.set_tool_result tool_name result }, .ok result)
    | .error e =>
        ({ rs with trace := rs.trace ++ [.toolInvoked tool_name inputs rs.state] },
         .error (.toolExecutionError tool_name e))

/-- `Agent.call_tool`: unknown tool → `ValueError`; otherwise build the
context, fire `before_execution` (when hooks are attached), execute, append
the message-history record on success and fire `after_execution` with the
result, or fire `after_execution` with the error and re-raise. -/
def callTool (cfg : AgentCfg) (rs : RunSt) (tool_name : String)
    (inputs : List (String × Value)) (execution_reasoning : String) :
    RunSt × Except PyErr Value :=
  match cfg.registry.get_tool tool_name with
  | none => (rs, .error (.valueError s!"Tool {tool_name} not found"))
  | some tool =>
    match createToolContext cfg rs tool_name inputs with
    | .error e => (rs, .error e)
    | .ok tool_context =>
      match executeTool cfg (emitIf tool.hooks rs (.beforeExecution tool_context))
          tool_name inputs with
      | (rs2, .ok result) =>
        (emitIf tool.hooks
          { rs2 with
            message_history := rs2.message_history ++
              [{ role := "tool", tool_name := tool_name, inputs := inputs
               , result := result, reasoning := execution_reasoning
               , timestamp := rs2.clock }]
          , clock := rs2.clock + 1 }
          (.afterExecution tool_context (some result) none), .ok result)
      | (rs2, .error e) =>
        (emitIf tool.hooks rs2 (.afterExecution tool_context none (some e)), .error e)

/-- `Agent._execute_step`: the registry check comes first (before any input
resolution), then inputs are resolved, a context is built for the selection
hook (notified after the fact with confidence 1.0 and the step's reasoning),
and finally `call_tool` runs. -/
def executeStep (cfg : AgentCfg) (rs : RunSt) (step : PlanStep) (task : String) :
    RunSt × Except PyErr Value :=
  if (cfg.registry.get_tool step.tool).isNone then
    (rs, .error (.toolNotFoundError s!"Tool {step.tool} not found"))
  else
    match mapInputsToTool cfg.registry rs.state cfg.context_data cfg.task_parameters
        step.tool task step.input_mapping with
    | .error e => (rs, .error e)
    | .ok inputs =>
      match createToolContext cfg rs step.tool inputs with
      | .error e => (rs, .error e)
      | .ok _tool_context =>
        callTool cfg (emitIf cfg.selectionHooks rs (.afterSelection step.tool 1 [step.reasoning]))
          step.tool inputs step.reasoning

/-- The `for step in self._current_plan.execution_plan` loop of `Agent.run`,
accumulating `results.append((step["tool"], result))`. -/
def execSteps (cfg : AgentCfg) (task : String) :
    RunSt → List PlanStep → List (String × Value) →
      RunSt × Except PyErr (List (String × Value))
  | rs, [], results => (rs, .ok results)
  | rs, step :: rest, results =>
    match executeStep cfg rs step task with
    | (rs1, .error e) => (rs1, .error e)
    | (rs1, .ok result) => execSteps cfg task rs1 rest (results ++ [(step.tool, result)])

/-- `Agent.plan_task`: no provider → `RuntimeError`; otherwise the outcome
of the structured model call (re-raised on failure, not retried). -/
def planTask (cfg : AgentCfg) : Except PyErr TaskAnalysis :=
  match cfg.llm with
  | none => .error (.runtimeError "LLM provider not configured")
  | some r => r

/-- The `try` body of `Agent.run`: plan, execute every step in plan order,
format, and store the output on `current_task`. -/
def runBody (cfg : AgentCfg) (rs : RunSt) (task : String) :
    RunSt × Except PyErr String :=
  match planTask cfg with
  | .error e => (rs, .error e)
  | .ok plan =>
    match execSteps cfg task { rs with plan := some plan } plan.execution_plan [] with
    | (rs2, .error e) => (rs2, .error e)
    | (rs2, .ok results) =>
      match cfg.formatResult task results with
      | .error e => (rs2, .error e)
      | .ok result =>
        ({ rs2 with task := { rs2.task with output := some result } }, .ok result)

/-- The `finally` clause of `Agent.run`: stamp `end_time`, promote
`in_progress` to `completed`, clear the in-flight plan. -/
def finalizeTask (rs : RunSt) : RunSt :=
  { rs with
    task := { rs.task with
      end_time := some rs.clock
    , status := if rs.task.status = "in_progress" then "completed" else rs.task.status }
  , plan := none }

/-- The fresh `TaskExecution` record created at the top of `Agent.run`. -/
def freshTask (cfg : AgentCfg) (task task_id : String) (t0 : Nat) : TaskExecution :=
  { task_id := task_id, agent_id := cfg.agent_id, input := task
  , steps := [], output := none, start_time := t0, end_time := none
  , status := "in_progress", error := none }

/-- `Agent.run`: create a fresh `TaskExecution` (status `in_progress`,
empty `steps`), run the body; the `except` clause records `str(e)` and the
`failed` status before re-raising, and the `finally` clause
(`finalizeTask`) runs on both exit paths.  `st0`/`mh0` are the agent's
state store and message history as they stand when `run` is entered. -/
def Agent.run (cfg : AgentCfg) (st0 : AgentState) (mh0 : List MsgRec)
    (task task_id : String) (t0 : Nat) : RunSt × Except PyErr String :=
  match runBody cfg
      { state := st0, message_history := mh0, task := freshTask cfg task task_id t0
      , plan := none, trace := [], clock := t0 + 1 } task with
  | (rs1, .ok result) => (finalizeTask rs1, .ok result)
  | (rs1, .error e) =>
    (finalizeTask
      { rs1 with task := { rs1.task with error := some e.message, status := "failed" } },
     .error e)

/-! ## Trace projections and concrete fixtures -/

/-- Project the context of a `before_execution` hook firing. -/
def Event.beforeCtx : Event → Option ToolContext
  | .beforeExecution ctx => some ctx
  | _ => none

/-- Project an actual tool invocation: the tool's name together with the
state store as the call could observe it. -/
def Event.invokedSnap : Event → Option (String × AgentState)
  | .toolInvoked n _ st => some (n, st)
  | _ => none

/-- A tool implementation that always returns `v`. -/
def implOf (v : Value) : ToolImpl := { execute := fun _ => .ok v }

/-- A tool implementation that always raises `e`. -/
def implRaising (e : PyErr) : ToolImpl := { execute := fun _ => .error e }

/-- Registry for the precedence scenario: one tool `t` requiring `x`. -/
def regC3 : ToolRegistry :=
  { tools := [("t",
      { name := "t",
        input_schema := { properties := [("x", { type := some "number" })],
                          required := ["x"] } })],
    implementations := [] }

/-- Precedence scenario state: variable `x = 1`, tool result `x = 2`,
tool result `other = {y: 3}`. -/
def stPrec : AgentState :=
  { vars := [("x", .vInt 1)]
  , tool_results := [("x", .vInt 2), ("other", .vDict [("y", .vInt 3)])] }

/-- Precedence scenario state without the `x` tool result. -/
def stPrecNoRes : AgentState :=
  { vars := [("x", .vInt 1)]
  , tool_results := [("other", .vDict [("y", .vInt 3)])] }

/-- Registry with a tool whose schema requires `a` and `b`. -/
def regTwoReq : ToolRegistry :=
  { tools := [("t2",
      { name := "t2",
        input_schema := { properties := [("a", { type := some "string" }),
                                         ("b", { type := some "number" })],
                          required := ["a", "b"] } })],
    implementations := [] }

/-- Registry with a zero-required tool whose only property is a number. -/
def regZeroReq : ToolRegistry :=
  { tools := [("t3",
      { name := "t3",
        input_schema := { properties := [("n", { type := some "number" })],
                          required := [] } })],
    implementations := [] }

/-- Results returned by the three sequential tools. -/
def resAlpha : Value := .vDict [("v", .vInt 1)]

/-- Second tool's result. -/
def resBeta : Value := .vDict [("v", .vInt 2)]

/-- Third tool's result. -/
def resGamma : Value := .vDict [("v", .vInt 3)]

/-- Registry of three no-input tools with hooks attached. -/
def regSeq : ToolRegistry :=
  { tools := [("alpha", { name := "alpha", hooks := true })
            , ("beta", { name := "beta", hooks := true })
            , ("gamma", { name := "gamma", hooks := true })]
  , implementations := [("alpha", implOf resAlpha)
                      , ("beta", implOf resBeta)
                      , ("gamma", implOf resGamma)] }

/-- A three-step plan `[alpha, beta, gamma]`. -/
def planSeq : TaskAnalysis :=
  { execution_plan := [ { tool := "alpha", reasoning := "s1" }
                      , { tool := "beta", reasoning := "s2" }
                      , { tool := "gamma", reasoning := "s3" } ] }

/-- Agent configuration for the sequential scenario. -/
def cfgSeq : AgentCfg :=
  { agent_id := "agent", registry := regSeq, llm := some (.ok planSeq)
  , formatResult := fun _ _ => .ok "done" }

/-- The sequential scenario run. -/
def runSeq : RunSt × Except PyErr String :=
  Agent.run cfgSeq {} [] "the task" "tid" 0

/-- Configuration whose plan names a tool absent from the (empty) registry. -/
def cfgMissing : AgentCfg :=
  { agent_id := "agent", registry := { tools := [], implementations := [] }
  , llm := some (.ok { execution_plan := [{ tool := "does_not_exist", reasoning := "r" }] })
  , formatResult := fun _ _ => .ok "out" }

/-- Registry with one hooked tool whose implementation always raises. -/
def regRaising : ToolRegistry :=
  { tools := [("calc", { name := "calc", hooks := true })]
  , implementations := [("calc", implRaising (.valueError "boom"))] }

/-- Configuration around `regRaising`. -/
def cfgRaising : AgentCfg :=
  { agent_id := "agent", registry := regRaising
  , llm := some (.ok { execution_plan := [{ tool := "calc", reasoning := "r" }] })
  , formatResult := fun _ _ => .ok "out" }

/-- A fresh run-state for calling `call_tool` directly. -/
def rsFresh : RunSt :=
  { state := {}, message_history := []
  , task := { task_id := "tid", agent_id := "agent", input := "the task" }
  , plan := none, trace := [], clock := 0 }

/-- Configuration whose plan has zero steps (a valid plan that goes straight
to formatting). -/
def cfgEmptyPlan : AgentCfg :=
  { agent_id := "agent", registry := { tools := [], implementations := [] }
  , llm := some (.ok { execution_plan := [] })
  , formatResult := fun _ _ => .ok "empty" }

/-- Metadata for a fresh `calc` registration. -/
def mdCalc : ToolMetadata := { name := "calc" }

/-- Second metadata under the same `calc` name. -/
def mdCalcBis : ToolMetadata := { name := "calc", description := "second" }

/-- The empty registry. -/
def emptyRegistry : ToolRegistry := { tools := [], implementations := [] }

/-- Fold a sequence of `register` calls from the empty registry, keeping the
post-call registry of every call, failed ones included. -/
def registerAll (calls : List (ToolMetadata × ToolImpl)) : ToolRegistry :=
  calls.foldl (fun r c => (r.register c.1 c.2).1) { tools := [], implementations := [] }

/-! ## Basic dictionary lemmas -/

lemma dictGet_dictInsert_self {α : Type} (l : List (String × α)) (k : String) (v : α) :
    dictGet (dictInsert l k v) k = some v := by
  induction l with
  | nil => simp [dictInsert, dictGet]
  | cons h t ih =>
    obtain ⟨k', w⟩ := h
    by_cases hk : k' = k
    · simp [dictInsert, dictGet, hk]
    · simp [dictInsert, dictGet, hk, ih]

lemma dictInsert_length {α : Type} (l : List (String × α)) (k : String) (v : α) :
    (dictInsert l k v).length =
      if (dictGet l k).isSome then l.length else l.length + 1 := by
  induction l with
  | nil => simp [dictInsert, dictGet]
  | cons h t ih =>
    obtain ⟨k', w⟩ := h
    by_cases hk : k' = k
    · simp [dictInsert, dictGet, hk]
    · simp only [dictInsert, dictGet, hk, if_false, List.length_cons, ih]
      split <;> omega

lemma dictInsert_fst_congr {α β : Type} {l₁ : List (String × α)} {l₂ : List (String × β)}
    (k : String) (v : α) (w : β) (h : l₁.map Prod.fst = l₂.map Prod.fst) :
    (dictInsert l₁ k v).map Prod.fst = (dictInsert l₂ k w).map Prod.fst := by
  induction l₁ generalizing l₂ with
  | nil =>
    have : l₂ = [] := by
      cases l₂ with
      | nil => rfl
      | cons b t => simp at h
    subst this
    simp [dictInsert]
  | cons a t ih =>
    cases l₂ with
    | nil => simp at h
    | cons b t₂ =>
      obtain ⟨ka, va⟩ := a
      obtain ⟨kb, vb⟩ := b
      simp only [List.map_cons] at h
      obtain ⟨hk, ht⟩ := List.cons.inj h
      subst hk
      by_cases hke : ka = k
      · simp [dictInsert, hke, ht]
      · simp [dictInsert, hke, ih ht]

lemma dictGet_isSome_congr {α β : Type} {l₁ : List (String × α)} {l₂ : List (String × β)}
    (k : String) (h : l₁.map Prod.fst = l₂.map Prod.fst) :
    (dictGet l₁ k).isSome = (dictGet l₂ k).isSome := by
  induction l₁ generalizing l₂ with
  | nil =>
    have : l₂ = [] := by
      cases l₂ with
      | nil => rfl
      | cons b t => simp at h
    subst this; rfl
  | cons a t ih =>
    cases l₂ with
    | nil => simp at h
    | cons b t₂ =>
      obtain ⟨ka, va⟩ := a
      obtain ⟨kb, vb⟩ := b
      simp only [List.map_cons] at h
      obtain ⟨hk, ht⟩ := List.cons.inj h
      subst hk
      by_cases hke : ka = k
      · simp [dictGet, hke]
      · simp [dictGet, hke, ih ht]

/-! ## Resolver lemmas -/

lemma schemaLoop_snd_of_noRef (st : AgentState) (cd : Option String)
    (tp : Option (List (String × Value))) (task : String) :
    ∀ (props : List (String × PropSchema)) (curName : String) (acc : List (String × Value)),
      (∀ p ∈ props, p.2.ref = none) →
      (schemaLoop st cd tp task props curName acc).2 = curName := by
  intro props
  induction props with
  | nil => intro curName acc _; rfl
  | cons p rest ih =>
    intro curName acc h
    obtain ⟨input_name, sch⟩ := p
    have hp : sch.ref = none := h (input_name, sch) (List.mem_cons_self _ _)
    have hrest : ∀ q ∈ rest, q.2.ref = none := fun q hq => h q (List.mem_cons_of_mem _ hq)
    unfold schemaLoop
    rw [hp]
    simp only [Option.isSome_none, Bool.false_eq_true, if_false]
    repeat' split
    all_goals exact ih curName _ hrest

lemma schemaLoop_unmappable (st : AgentState) (cd : Option String)
    (tp : Option (List (String × Value))) (task : String) :
    ∀ (props : List (String × PropSchema)) (curName : String) (acc : List (String × Value)),
      (∀ p ∈ props, p.2.ref = none ∧ p.2.type ≠ some "string" ∧
        st.has_tool_result p.1 = false ∧ st.has_variable p.1 = false) →
      schemaLoop st cd tp task props curName acc = (acc, curName) := by
  intro props
  induction props with
  | nil => intro curName acc _; rfl
  | cons p rest ih =>
    intro curName acc h
    obtain ⟨input_name, sch⟩ := p
    obtain ⟨h1, h2, h3, h4⟩ := h (input_name, sch) (List.mem_cons_self _ _)
    have hrest := fun q hq => h q (List.mem_cons_of_mem _ hq)
    unfold schemaLoop
    rw [h1]
    simp only [Option.isSome_none, Bool.false_eq_true, if_false, h3, h4, if_neg h2]
    exact ih curName acc hrest

/-! ## Engine preservation lemmas: no helper of `run` touches
`TaskExecution` except `runBody`'s own output assignment -/

lemma emitIf_task (cond : Bool) (rs : RunSt) (ev : Event) :
    (emitIf cond rs ev).task = rs.task := by
  unfold emitIf; split <;> rfl

lemma executeTool_task (cfg : AgentCfg) (rs : RunSt) (n : String)
    (inputs : List (String × Value)) : (executeTool cfg rs n inputs).1.task = rs.task := by
  unfold executeTool
  split
  · rfl
  · split <;> rfl

lemma callTool_task (cfg : AgentCfg) (rs : RunSt) (n : String)
    (inputs : List (String × Value)) (reasoning : String) :
    (callTool cfg rs n inputs reasoning).1.task = rs.task := by
  rcases hg : cfg.registry.get_tool n with _ | tool
  · simp [callTool, hg]
  · rcases hc : createToolContext cfg rs n inputs with e | ctx
    · simp [callTool, hg, hc]
    · rcases he : executeTool cfg (emitIf tool.hooks rs (.beforeExecution ctx)) n inputs
        with ⟨rs2, res⟩
      have h2 : rs2.task = rs.task := by
        have h := executeTool_task cfg (emitIf tool.hooks rs (.beforeExecution ctx)) n inputs
        rw [he] at h
        rw [h, emitIf_task]
      cases res with
      | ok result => simp [callTool, hg, hc, he, emitIf_task, h2]
      | error e => simp [callTool, hg, hc, he, emitIf_task, h2]

lemma executeStep_task (cfg : AgentCfg) (rs : RunSt) (step : PlanStep) (task : String) :
    (executeStep cfg rs step task).1.task = rs.task := by
  unfold executeStep
  split
  · rfl
  · split
    · rfl
    · split
      · rfl
      · rw [callTool_task, emitIf_task]

lemma execSteps_task (cfg : AgentCfg) (task : String) (steps : List PlanStep) :
    ∀ (rs : RunSt) (results : List (String × Value)),
      (execSteps cfg task rs steps results).1.task = rs.task := by
  induction steps with
  | nil => intro rs results; rfl
  | cons step rest ih =>
    intro rs results
    unfold execSteps
    have h := executeStep_task cfg rs step task
    split
    · rename_i rs1 e heq
      rw [heq] at h; exact h
    · rename_i rs1 result heq
      rw [heq] at h
      rw [ih rs1]; exact h

lemma runBody_ok_task {cfg : AgentCfg} {rs rs' : RunSt} {task out : String}
    (h : runBody cfg rs task = (rs', .ok out)) :
    rs'.task = { rs.task with output := some out } := by
  unfold runBody at h
  split at h
  · exact absurd (Prod.mk.inj h).2 (by simp)
  · rename_i plan _
    split at h
    · exact absurd (Prod.mk.inj h).2 (by simp)
    · rename_i rs2 results heq
      split at h
      · exact absurd (Prod.mk.inj h).2 (by simp)
      · rename_i result hfmt
        obtain ⟨h1, h2⟩ := Prod.mk.inj h
        have hout : result = out := by
          simpa using h2
        have htask : rs2.task = rs.task := by
          have := execSteps_task cfg task plan.execution_plan
            { rs with plan := some plan } []
          rw [heq] at this; exact this
        rw [← h1, ← hout, htask]

lemma runBody_err_task {cfg : AgentCfg} {rs rs' : RunSt} {task : String} {e : PyErr}
    (h : runBody cfg rs task = (rs', .error e)) : rs'.task = rs.task := by
  unfold runBody at h
  split at h
  · obtain ⟨h1, _⟩ := Prod.mk.inj h
    rw [← h1]
  · rename_i plan _
    split at h
    · rename_i rs2 e2 heq
      obtain ⟨h1, _⟩ := Prod.mk.inj h
      have := execSteps_task cfg task plan.execution_plan { rs with plan := some plan } []
      rw [heq] at this
      rw [← h1]; exact this
    · rename_i rs2 results heq
      split at h
      · obtain ⟨h1, _⟩ := Prod.mk.inj h
        have := execSteps_task cfg task plan.execution_plan { rs with plan := some plan } []
        rw [heq] at this
        rw [← h1]; exact this
      · exact absurd (Prod.mk.inj h).2 (by simp)

/-! ## Claim theorems -/

/-- C1: evaluating the engine at a three-step plan `[alpha, beta, gamma]`
(the claim's failing input).  The engine never appends a record to
`TaskExecution.steps`, so every `ToolContext` it builds carries
`previous_tools`/`previous_results` of length 0 — not 0, 1, 2 as the claim
states — even though the run completes; the State-Store half of the claim
does hold: `beta`'s invocation observes `alpha`'s result under key `alpha`,
and `gamma`'s observes both. -/
theorem run_never_records_steps :
    runSeq.1.task.steps = []
  ∧ (runSeq.1.trace.filterMap Event.beforeCtx).map
      (fun c => c.previous_tools.length) = [0, 0, 0]
  ∧ (runSeq.1.trace.filterMap Event.beforeCtx).map
      (fun c => c.previous_results.length) = [0, 0, 0]
  ∧ (runSeq.1.trace.filterMap Event.invokedSnap).map
      (fun p => (p.1, p.2.tool_results.map Prod.fst)) =
      [("alpha", []), ("beta", ["alpha"]), ("gamma", ["alpha", "beta"])]
  ∧ (runSeq.1.trace.filterMap Event.invokedSnap).map
      (fun p => p.2.get_tool_result "alpha" .vNone) = [.vNone, resAlpha, resAlpha]
  ∧ runSeq.1.task.status = "completed" :=
  ⟨rfl, rfl, rfl, rfl, rfl, rfl⟩

/-- C3: with a state variable `x = 1`, a tool result `x = 2`, a tool result
`other = {y: 3}` and the explicit mapping `x -> "other.y"`, the resolver
binds `x` to `3`; without the explicit mapping it binds the result-by-name
`2`; and without the `x` tool result it binds the state variable `1`
(explicit beats result-by-name beats variable). -/
theorem input_resolution_precedence :
    mapInputsToTool regC3 stPrec none none "t" "the task" [("x", "other.y")] =
      .ok [("x", .vInt 3)]
  ∧ mapInputsToTool regC3 stPrec none none "t" "the task" [] = .ok [("x", .vInt 2)]
  ∧ mapInputsToTool regC3 stPrecNoRes none none "t" "the task" [] = .ok [("x", .vInt 1)] :=
  ⟨rfl, rfl, rfl⟩

/-- C6 counterexample: tool `t2` declares `required = ["a", "b"]`; with an
empty state nothing can bind `b` (a number-typed property), yet the
resolver returns the argument object `{a: task}` — an object missing the
required property `b` — instead of failing with an error naming `b`. -/
theorem mapInputs_returns_missing_required :
    mapInputsToTool regTwoReq {} none none "t2" "the task" [] =
      .ok [("a", .vStr "the task")]
  ∧ (regTwoReq.get_tool "t2").map (fun t => t.input_schema.required) = some ["a", "b"] :=
  ⟨rfl, rfl⟩

/-- C8: a second `set_tool_result` under the same name overwrites the
stored result (the store's size does not grow for a known name, so writes
overwrite rather than append), and every write updates `last_tool` to the
written name. -/
theorem set_tool_result_overwrites (s : AgentState) (v w u : Value) (n : String) :
    ((s.set_tool_result "calc" v).set_tool_result "calc" w).get_tool_result "calc" .vNone = w
  ∧ ((s.set_tool_result "calc" v).set_tool_result "calc" w).last_tool = some "calc"
  ∧ (s.set_tool_result n u).last_tool = some n
  ∧ (s.set_tool_result n u).tool_results.length =
      (if s.has_tool_result n then s.tool_results.length else s.tool_results.length + 1) := by
  refine ⟨?_, rfl, rfl, ?_⟩
  · simp [AgentState.set_tool_result, AgentState.get_tool_result, dictGet_dictInsert_self]
  · simp [AgentState.set_tool_result, AgentState.has_tool_result, dictInsert_length]

/-- C10: after any sequence of `register` calls (failed duplicates
included) starting from the empty registry, the contract map and the
implementation map have exactly the same key set: `get_tool` hits iff
`get_implementation` hits. -/
theorem registry_maps_have_same_keys (calls : List (ToolMetadata × ToolImpl)) (name : String) :
    ((registerAll calls).get_tool name).isSome =
      ((registerAll calls).get_implementation name).isSome := by
  have key : ∀ (cs : List (ToolMetadata × ToolImpl)) (r : ToolRegistry),
      r.tools.map Prod.fst = r.implementations.map Prod.fst →
      (cs.foldl (fun r c => (r.register c.1 c.2).1) r).tools.map Prod.fst =
        (cs.foldl (fun r c => (r.register c.1 c.2).1) r).implementations.map Prod.fst := by
    intro cs
    induction cs with
    | nil => intro r h; exact h
    | cons c rest ih =>
      intro r h
      simp only [List.foldl_cons]
      apply ih
      unfold ToolRegistry.register
      split
      · exact h
      · exact dictInsert_fst_congr c.1.name _ _ h
  exact dictGet_isSome_congr name (key calls { tools := [], implementations := [] } rfl)

/-- C4: registering a fresh name stores both the contract and the
implementation and raises nothing; a subsequent registration under the same
name raises the duplicate error and leaves the registry exactly as it was
(neither map is modified by the failed call). -/
theorem register_unique_name (r : ToolRegistry) (m m2 : ToolMetadata) (i i2 : ToolImpl)
    (hfresh : r.get_tool m.name = none) (hname : m2.name = m.name) :
    (r.register m i).2 = none
  ∧ (r.register m i).1.get_tool m.name =
      some { name := m.name, description := m.description, tags := m.tags
           , input_schema := m.input_schema, output_schema := m.output_schema
           , hooks := false }
  ∧ (r.register m i).1.get_implementation m.name = some i
  ∧ ((r.register m i).1.register m2 i2).1 = (r.register m i).1
  ∧ ((r.register m i).1.register m2 i2).2 =
      some (.valueError s!"Tool {m2.name} is already registered") := by
  have hnone : (dictGet r.tools m.name).isSome = false := by
    unfold ToolRegistry.get_tool at hfresh
    rw [hfresh]; rfl
  have h1 : r.register m i =
      ({ tools := dictInsert r.tools m.name
           { name := m.name, description := m.description, tags := m.tags
           , input_schema := m.input_schema, output_schema := m.output_schema
           , hooks := false }
       , implementations := dictInsert r.implementations m.name i }, none) := by
    unfold ToolRegistry.register
    rw [hnone]
    simp
  rw [h1]
  have hdup : (dictGet (dictInsert r.tools m.name
      { name := m.name, description := m.description, tags := m.tags
      , input_schema := m.input_schema, output_schema := m.output_schema
      , hooks := false }) m2.name).isSome = true := by
    rw [hname, dictGet_dictInsert_self]; rfl
  refine ⟨rfl, ?_, ?_, ?_, ?_⟩
  · exact dictGet_dictInsert_self _ _ _
  · exact dictGet_dictInsert_self _ _ _
  · unfold ToolRegistry.register
    rw [hdup]
    simp
  · unfold ToolRegistry.register
    rw [hdup]
    simp

/-- C4 witness: concrete duplicate registration of `calc` on the registry
obtained by first registering `calc` on the empty registry. -/
theorem register_unique_name_witness :
    (emptyRegistry.register mdCalc (implOf (.vInt 5))).2 = none
  ∧ ((emptyRegistry.register mdCalc (implOf (.vInt 5))).1.register mdCalcBis
      (implOf (.vInt 7))).1 = (emptyRegistry.register mdCalc (implOf (.vInt 5))).1
  ∧ ((emptyRegistry.register mdCalc (implOf (.vInt 5))).1.register mdCalcBis
      (implOf (.vInt 7))).2 =
      some (.valueError "Tool calc is already registered") := by
  have h := register_unique_name emptyRegistry mdCalc mdCalcBis
    (implOf (.vInt 5)) (implOf (.vInt 7)) rfl rfl
  exact ⟨h.1, h.2.2.2.1, h.2.2.2.2⟩

/-- C9: a tool whose schema declares `required = []` and whose properties
cannot be bound by any layer (no `$ref`, not string-typed, no matching tool
result or variable), called without an explicit mapping, resolves to the
empty input object rather than being rejected. -/
theorem zero_required_empty_inputs (registry : ToolRegistry) (st : AgentState)
    (cd : Option String) (tp : Option (List (String × Value)))
    (tool_name task : String) (tool : Tool)
    (hget : registry.get_tool tool_name = some tool)
    (hreq : tool.input_schema.required = [])
    (hprops : ∀ p ∈ tool.input_schema.properties,
      p.2.ref = none ∧ p.2.type ≠ some "string" ∧
      st.has_tool_result p.1 = false ∧ st.has_variable p.1 = false) :
    mapInputsToTool registry st cd tp tool_name task [] = .ok [] := by
  unfold mapInputsToTool
  rw [hget]
  dsimp only
  rw [schemaLoop_unmappable st cd tp task tool.input_schema.properties tool_name [] hprops]
  rw [hreq]
  simp

/-- C9 witness: the zero-required tool `t3` with a number-typed property
and an empty state resolves to `{}`. -/
theorem zero_required_empty_inputs_witness :
    mapInputsToTool regZeroReq {} none none "t3" "task" [] = .ok [] :=
  zero_required_empty_inputs regZeroReq {} none none "t3" "task"
    { name := "t3",
      input_schema := { properties := [("n", { type := some "number" })],
                        required := [] } }
    rfl rfl (by decide)

/-- C6 amended: when schema-guided resolution binds nothing at all and the
tool declares at least one required property, the resolver fails with
`ValueError "Could not map inputs for tool <name>"` — naming the tool but
not the unresolved property; when at least one property was bound, the
resolver returns the partial argument object as is, even if required
properties remain unbound (the `$ref`-free hypothesis keeps the message's
tool name unperturbed by the scan's loop-variable shadowing). -/
theorem mapInputs_partial_binding (registry : ToolRegistry) (st : AgentState)
    (cd : Option String) (tp : Option (List (String × Value)))
    (tool_name task : String) (tool : Tool)
    (hget : registry.get_tool tool_name = some tool)
    (hnoref : ∀ p ∈ tool.input_schema.properties, p.2.ref = none) :
    ((schemaLoop st cd tp task tool.input_schema.properties tool_name []).1 = [] →
      tool.input_schema.required ≠ [] →
      mapInputsToTool registry st cd tp tool_name task [] =
        .error (.valueError s!"Could not map inputs for tool {tool_name}"))
  ∧ (∀ m, (schemaLoop st cd tp task tool.input_schema.properties tool_name []).1 = m →
      m ≠ [] →
      mapInputsToTool registry st cd tp tool_name task [] = .ok m) := by
  have hname := schemaLoop_snd_of_noRef st cd tp task
    tool.input_schema.properties tool_name [] hnoref
  rcases hloop : schemaLoop st cd tp task tool.input_schema.properties tool_name []
    with ⟨mapped, curName⟩
  rw [hloop] at hname
  dsimp only at hname
  subst hname
  constructor
  · intro hempty hreq
    dsimp only at hempty
    subst hempty
    unfold mapInputsToTool
    rw [hget]
    dsimp only
    rw [hloop]
    have : tool.input_schema.required.isEmpty = false := by
      cases h : tool.input_schema.required with
      | nil => exact absurd h hreq
      | cons a t => rfl
    simp [this]
  · intro m hm hne
    dsimp only at hm
    subst hm
    unfold mapInputsToTool
    rw [hget]
    dsimp only
    rw [hloop]
    have : mapped.isEmpty = false := by
      cases h : mapped with
      | nil => exact absurd h hne
      | cons a t => rfl
    simp [this]

/-- C6 witness: tool `t2` (required `a`, `b`) with the empty state binds
only `a`, and the resolver returns that partial object. -/
theorem mapInputs_partial_binding_witness :
    mapInputsToTool regTwoReq {} none none "t2" "the task" [] =
      .ok [("a", .vStr "the task")] :=
  (mapInputs_partial_binding regTwoReq {} none none "t2" "the task"
    { name := "t2",
      input_schema := { properties := [("a", { type := some "string" }),
                                       ("b", { type := some "number" })],
                        required := ["a", "b"] } }
    rfl (by decide)).2 [("a", .vStr "the task")] rfl (by simp)

/-- C7: when the tool's implementation raises during `call_tool`, the
attached `after_execution` hook fires with the execution context and the
(wrapped) error before the exception propagates: the observable trace of
the call is exactly `before_execution`, the invocation, then
`after_execution` with the error, and the call re-raises that error. -/
theorem after_execution_fires_on_error (cfg : AgentCfg) (rs : RunSt)
    (n reasoning : String) (inputs : List (String × Value))
    (tool : Tool) (impl : ToolImpl) (e : PyErr)
    (hget : cfg.registry.get_tool n = some tool)
    (hhooks : tool.hooks = true)
    (himpl : cfg.registry.get_implementation n = some impl)
    (hexec : impl.execute inputs = .error e)
    (hsteps : rs.task.steps = []) :
    ∃ ctx, createToolContext cfg rs n inputs = .ok ctx
  ∧ (callTool cfg rs n inputs reasoning).2 = .error (.toolExecutionError n e)
  ∧ (callTool cfg rs n inputs reasoning).1.trace =
      rs.trace ++ [.beforeExecution ctx, .toolInvoked n inputs rs.state,
                   .afterExecution ctx none (some (.toolExecutionError n e))] := by
  have hctx : createToolContext cfg rs n inputs = .ok
      { task := rs.task.input, tool_name := n, inputs := inputs
      , available_tools := cfg.registry.get_formatted_tools
      , previous_tools := [], previous_results := [], previous_errors := []
      , message_history := rs.message_history, agent_id := cfg.agent_id
      , task_id := rs.task.task_id, start_time := rs.task.start_time
      , metadata := cfg.metadata, plan := rs.plan } := by
    unfold createToolContext previousTools previousResults previousErrors
    rw [hsteps]
    rfl
  refine ⟨_, hctx, ?_⟩
  unfold callTool
  rw [hget, hctx]
  dsimp only
  unfold executeTool
  rw [himpl]
  dsimp only
  rw [hexec]
  dsimp only
  rw [hhooks]
  simp [emitIf]

/-- C7 witness: the hooked `calc` tool whose implementation raises
`ValueError "boom"` fires `after_execution` with the wrapped error and the
call re-raises it. -/
theorem after_execution_fires_on_error_witness :
    (callTool cfgRaising rsFresh "calc" [] "r").2 =
      .error (.toolExecutionError "calc" (.valueError "boom")) := by
  obtain ⟨ctx, _, hres, _⟩ := after_execution_fires_on_error cfgRaising rsFresh
    "calc" "r" [] { name := "calc", hooks := true }
    (implRaising (.valueError "boom")) (.valueError "boom") rfl rfl rfl rfl rfl
  exact hres

/-- C2: on every exit path of `Agent.run` — normal completion or any
exception from planning, a step, or formatting — `end_time` is set and the
in-flight plan reference is cleared; the status is promoted from
`in_progress` to `completed` exactly when no error was recorded, and on an
exception the status is `failed` and `TaskExecution.error` is the
exception's message. -/
theorem run_finalizes_every_exit (cfg : AgentCfg) (st0 : AgentState) (mh0 : List MsgRec)
    (task task_id : String) (t0 : Nat) :
    ((Agent.run cfg st0 mh0 task task_id t0).1.task.end_time).isSome = true
  ∧ (Agent.run cfg st0 mh0 task task_id t0).1.plan = none
  ∧ (∀ result, (Agent.run cfg st0 mh0 task task_id t0).2 = .ok result →
      (Agent.run cfg st0 mh0 task task_id t0).1.task.status = "completed"
      ∧ (Agent.run cfg st0 mh0 task task_id t0).1.task.error = none
      ∧ (Agent.run cfg st0 mh0 task task_id t0).1.task.output = some result)
  ∧ (∀ e, (Agent.run cfg st0 mh0 task task_id t0).2 = .error e →
      (Agent.run cfg st0 mh0 task task_id t0).1.task.status = "failed"
      ∧ (Agent.run cfg st0 mh0 task task_id t0).1.task.error = some e.message) := by
  unfold Agent.run
  rcases hb : runBody cfg
      { state := st0, message_history := mh0, task := freshTask cfg task task_id t0
      , plan := none, trace := [], clock := t0 + 1 } task with ⟨rs1, res⟩
  cases res with
  | ok result =>
    have ht := runBody_ok_task hb
    have hst : rs1.task.status = "in_progress" := by rw [ht]; try rfl
    have herr : rs1.task.error = none := by rw [ht]; try rfl
    have hout : rs1.task.output = some result := by rw [ht]; try rfl
    dsimp only
    refine ⟨rfl, rfl, fun result2 h2 => ?_, fun e h2 => ?_⟩
    · obtain rfl := Except.ok.inj h2
      exact ⟨by simp [finalizeTask, hst], by simp [finalizeTask, herr], by simp [finalizeTask, hout]⟩
    · exact absurd h2 (by simp)
  | error e =>
    dsimp only
    refine ⟨rfl, rfl, fun result2 h2 => ?_, fun e2 h2 => ?_⟩
    · exact absurd h2 (by simp)
    · obtain rfl := Except.error.inj h2
      exact ⟨by simp [finalizeTask], by simp [finalizeTask]⟩

/-- C2 witness: a run with a zero-step plan completes with `end_time` set,
status `completed` and no error. -/
theorem run_finalizes_every_exit_witness :
    ((Agent.run cfgEmptyPlan {} [] "t" "id" 0).1.task.end_time).isSome = true
  ∧ (Agent.run cfgEmptyPlan {} [] "t" "id" 0).1.plan = none
  ∧ (Agent.run cfgEmptyPlan {} [] "t" "id" 0).1.task.status = "completed"
  ∧ (Agent.run cfgEmptyPlan {} [] "t" "id" 0).1.task.error = none := by
  have h := run_finalizes_every_exit cfgEmptyPlan {} [] "t" "id" 0
  have hok := h.2.2.1 "empty" rfl
  exact ⟨h.1, h.2.1, hok.1, hok.2.1⟩

/-- C5: a plan step naming a tool absent from the registry fails at the
registry check, before any input resolution (the step returns its run-state
unchanged, with no hook, invocation or resolution effect), and the run
finishes with status `failed`, an error naming the missing tool, and an
empty event trace — no tool implementation was invoked. -/
theorem unknown_tool_aborts_run (cfg : AgentCfg) (st0 : AgentState) (mh0 : List MsgRec)
    (plan : TaskAnalysis) (step : PlanStep) (task task_id : String) (t0 : Nat)
    (hllm : cfg.llm = some (.ok plan))
    (hplan : plan.execution_plan = [step])
    (hmiss : cfg.registry.get_tool step.tool = none) :
    (∀ rs : RunSt, executeStep cfg rs step task =
        (rs, .error (.toolNotFoundError s!"Tool {step.tool} not found")))
  ∧ (Agent.run cfg st0 mh0 task task_id t0).2 =
      .error (.toolNotFoundError s!"Tool {step.tool} not found")
  ∧ (Agent.run cfg st0 mh0 task task_id t0).1.task.status = "failed"
  ∧ (Agent.run cfg st0 mh0 task task_id t0).1.task.error =
      some s!"Tool {step.tool} not found"
  ∧ (Agent.run cfg st0 mh0 task task_id t0).1.trace = [] := by
  have hstep : ∀ rs : RunSt, executeStep cfg rs step task =
      (rs, .error (.toolNotFoundError s!"Tool {step.tool} not found")) := by
    intro rs
    unfold executeStep
    rw [hmiss]
    rfl
  have hplanTask : planTask cfg = .ok plan := by
    unfold planTask; rw [hllm]
  have hbody : ∀ rs : RunSt, runBody cfg rs task =
      ({ rs with plan := some plan },
       .error (.toolNotFoundError s!"Tool {step.tool} not found")) := by
    intro rs
    unfold runBody
    rw [hplanTask]
    dsimp only
    rw [hplan]
    unfold execSteps
    rw [hstep]
  refine ⟨hstep, ?_, ?_, ?_, ?_⟩ <;>
    · unfold Agent.run
      rw [hbody]
      try rfl

/-- C5 witness: a plan whose only step names `does_not_exist` against an
empty registry. -/
theorem unknown_tool_aborts_run_witness :
    (Agent.run cfgMissing {} [] "t" "id" 0).2 =
      .error (.toolNotFoundError "Tool does_not_exist not found")
  ∧ (Agent.run cfgMissing {} [] "t" "id" 0).1.task.status = "failed"
  ∧ (Agent.run cfgMissing {} [] "t" "id" 0).1.task.error =
      some "Tool does_not_exist not found"
  ∧ (Agent.run cfgMissing {} [] "t" "id" 0).1.trace = [] := by
  have h := unknown_tool_aborts_run cfgMissing {} []
    { execution_plan := [{ tool := "does_not_exist", reasoning := "r" }] }
    { tool := "does_not_exist", reasoning := "r" } "t" "id" 0 rfl rfl rfl
  exact ⟨h.2.1, h.2.2.1, h.2.2.2.1, h.2.2.2.2⟩

end AgentSpec
